import Mathlib

/-!
Shallow embedding of the grade-record web API (`app/` package):
the relational data model (`app/db/base.py`), the score repository
(`app/db/repository.py`), the score endpoints
(`app/api/endpoints/score.py`), the auth/token machinery
(`app/core/security.py`, `app/api/endpoints/user.py`) and the
credential hasher (MD5, as used by `get_hash`).

Tables are embedded as lists of rows in insertion order; SQLAlchemy's
`scalar_one_or_none` is embedded faithfully (it raises when the query
matches more than one row).  Async handlers are embedded as explicit
state-passing functions; a Python coroutine that the source creates but
never awaits contributes no effect, and attribute access on the
resulting coroutine object raises `AttributeError` (this is standard
Python semantics and is noted at each point of use).
-/

namespace GradeApi

/-- ORM row of table `faculties` (`app/db/base.py`). -/
structure Faculty where
  id : Nat
  name : String
deriving Repr, DecidableEq

/-- ORM row of table `students` (`app/db/base.py`). -/
structure Student where
  id : Nat
  first_name : String
  last_name : String
  faculty_id : Nat
deriving Repr, DecidableEq

/-- ORM row of table `courses` (`app/db/base.py`). -/
structure Course where
  id : Nat
  name : String
deriving Repr, DecidableEq

/-- ORM row of table `grades` (`app/db/base.py`). -/
structure Grade where
  id : Nat
  student_id : Nat
  course_id : Nat
  score : Int
deriving Repr, DecidableEq

/-- The persistent score store: the four tables, each a list of rows in
insertion order (autoincrement primary keys). -/
structure ScoreDB where
  faculties : List Faculty
  students : List Student
  courses : List Course
  grades : List Grade
deriving Repr, DecidableEq

/-- Errors surfaced by the embedded data layer. -/
inductive DBError where
  /-- SQLAlchemy `MultipleResultsFound`, raised by `scalar_one_or_none`
  when the query matches more than one row. -/
  | multipleResults
deriving Repr, DecidableEq

/-- `Result.scalar_one_or_none()`: `none` on zero rows, the row on
exactly one, and an error on two or more. -/
def scalar_one_or_none {α : Type} : List α → Except DBError (Option α)
  | [] => .ok none
  | [a] => .ok (some a)
  | _ => .error .multipleResults

/-- Next autoincrement primary key for a list of existing ids. -/
def nextId (ids : List Nat) : Nat := ids.foldr max 0 + 1

/-- `ScoreRepository.get_faculty` (`app/db/repository.py`): look the
faculty up by exact name; insert a fresh row when absent. -/
def get_faculty (db : ScoreDB) (name : String) :
    Except DBError (Faculty × ScoreDB) :=
  match scalar_one_or_none (db.faculties.filter (fun f => f.name == name)) with
  | .error e => .error e
  | .ok (some f) => .ok (f, db)
  | .ok none =>
      let f : Faculty := ⟨nextId (db.faculties.map (·.id)), name⟩
      .ok (f, { db with faculties := db.faculties ++ [f] })

/-- `ScoreRepository.get_student`: look the student up by exact
(last_name, first_name, faculty_id); insert a fresh row when absent. -/
def get_student (db : ScoreDB) (name last_name : String) (fac : Faculty) :
    Except DBError (Student × ScoreDB) :=
  match scalar_one_or_none (db.students.filter
    (fun s => s.last_name == last_name && s.first_name == name &&
      s.faculty_id == fac.id)) with
  | .error e => .error e
  | .ok (some s) => .ok (s, db)
  | .ok none =>
      let s : Student := ⟨nextId (db.students.map (·.id)), name, last_name, fac.id⟩
      .ok (s, { db with students := db.students ++ [s] })

/-- `ScoreRepository.get_course`: look the course up by exact name;
insert a fresh row when absent. -/
def get_course (db : ScoreDB) (name : String) :
    Except DBError (Course × ScoreDB) :=
  match scalar_one_or_none (db.courses.filter (fun c => c.name == name)) with
  | .error e => .error e
  | .ok (some c) => .ok (c, db)
  | .ok none =>
      let c : Course := ⟨nextId (db.courses.map (·.id)), name⟩
      .ok (c, { db with courses := db.courses ++ [c] })

/-- `ScoreRepository.add_or_update_grade`: resolve the grade by
(student_id, course_id); insert with the given score when absent,
otherwise overwrite the score of the existing row in place. -/
def add_or_update_grade (db : ScoreDB) (score : Int) (stu : Student)
    (crs : Course) : Except DBError (Grade × ScoreDB) :=
  match scalar_one_or_none (db.grades.filter
    (fun g => g.student_id == stu.id && g.course_id == crs.id)) with
  | .error e => .error e
  | .ok (some g) =>
      let g2 : Grade := { g with score := score }
      let grades2 := db.grades.map (fun h =>
        if h.student_id == stu.id && h.course_id == crs.id then
          { h with score := score } else h)
      .ok (g2, { db with grades := grades2 })
  | .ok none =>
      let g : Grade := ⟨nextId (db.grades.map (·.id)), stu.id, crs.id, score⟩
      .ok (g, { db with grades := db.grades ++ [g] })

/-- `ScoreRepository.add_score`: the grade upsert — get-or-create the
faculty, the student, the course, then insert-or-update the grade. -/
def add_score (db : ScoreDB) (first_name last_name faculty course : String)
    (score : Int) : Except DBError (Grade × ScoreDB) :=
  match get_faculty db faculty with
  | .error e => .error e
  | .ok (fac, db) =>
    match get_student db first_name last_name fac with
    | .error e => .error e
    | .ok (stu, db) =>
      match get_course db course with
      | .error e => .error e
      | .ok (crs, db) => add_or_update_grade db score stu crs

/-! ## Score listing (`list_scores`, `app/api/endpoints/score.py`)

The SQL queries are embedded with inner-join multiplicity: a joined row
appears once per matching combination of joined rows, and the `COUNT`
query carries the same joins and `WHERE` clauses as the row query.
Pagination (`OFFSET skip LIMIT limit`) applies to the row query only.
The source declares no `ORDER BY`; the embedding keeps the stored
insertion order, which only matters for the shape of `items`, not for
`total` or for membership.

The filter-presence guards are Python truthiness tests
(`if filter_params.faculty:`, `if filter_params.course:`): a filter
that is absent (`None`) **or the empty string** (as delivered for
`GET /score?faculty=`) is skipped entirely, and only then are the joins
and the `WHERE` clause added. -/

/-- The pre-pagination result rows of `list_scores`' grade query for a
given optional faculty filter and course filter: the source starts from
`select(Grade)` and, per *truthy* filter (present and non-empty), adds
the corresponding joins and an exact string-equality `WHERE` clause; a
present-but-empty filter is skipped by the truthiness test exactly like
an absent one. -/
def listRows (db : ScoreDB) (faculty course : Option String) : List Grade :=
  let rows := db.grades
  let rows := match faculty with
    | none => rows
    | some fn =>
        if fn == "" then rows
        else rows.flatMap (fun g =>
          (db.students.filter (fun s => s.id == g.student_id)).flatMap (fun s =>
            (db.faculties.filter (fun f => f.id == s.faculty_id && f.name == fn)).map
              (fun _ => g)))
  match course with
  | none => rows
  | some cn =>
      if cn == "" then rows
      else rows.flatMap (fun g =>
        (db.courses.filter (fun c => c.id == g.course_id && c.name == cn)).map
          (fun _ => g))

/-- The filter actually applied by the handler's truthiness guard: a
present-but-empty filter collapses to an absent one. -/
def effectiveFilter : Option String → Option String
  | none => none
  | some s => if s == "" then none else some s

/-- `list_scores` (GET handler): `total` is evaluated from the count
query before `offset`/`limit` are applied to the row query; the page is
the row query after `offset skip` and `limit limit`. -/
def list_scores (db : ScoreDB) (faculty course : Option String)
    (skip limit : Nat) : List Grade × Nat :=
  let total := (listRows db faculty course).length
  let page := ((listRows db faculty course).drop skip).take limit
  (page, total)

/-- Claim-side row predicate: the student owning the grade exists and
belongs to a faculty with the filtered name. -/
def gradeFacultyName (db : ScoreDB) (g : Grade) : Option String := do
  let s ← db.students.find? (fun s => s.id == g.student_id)
  let f ← db.faculties.find? (fun f => f.id == s.faculty_id)
  pure f.name

/-- Claim-side row predicate: the course owning the grade exists and
has the filtered name. -/
def gradeCourseName (db : ScoreDB) (g : Grade) : Option String := do
  let c ← db.courses.find? (fun c => c.id == g.course_id)
  pure c.name

/-- A grade row matches an optional faculty filter and course filter. -/
def gradeMatches (db : ScoreDB) (faculty course : Option String)
    (g : Grade) : Bool :=
  (match faculty with
    | none => true
    | some fn => gradeFacultyName db g == some fn) &&
  (match course with
    | none => true
    | some cn => gradeCourseName db g == some cn)

/-! ## Referential integrity of the score store

The persisted schema declares `id` as primary key on each table and the
`student_id`, `course_id`, `faculty_id` columns as non-nullable foreign
keys; the corresponding invariants of a well-formed store. -/

/-- Primary keys are unique and every foreign key resolves. -/
structure ScoreDBInv (db : ScoreDB) : Prop where
  studentIds : (db.students.map (·.id)).Nodup
  facultyIds : (db.faculties.map (·.id)).Nodup
  courseIds : (db.courses.map (·.id)).Nodup
  gradeStudent : ∀ g ∈ db.grades, ∃ s ∈ db.students, s.id = g.student_id
  gradeCourse : ∀ g ∈ db.grades, ∃ c ∈ db.courses, c.id = g.course_id
  studentFaculty : ∀ s ∈ db.students, ∃ f ∈ db.faculties, f.id = s.faculty_id

/-! ## Request-body validation (`app/schemas/schemas.py`)

`ScoreCreate` inherits from `ScoreBase`, whose `score` field is a bare
`int` with no `Field` bounds and no validator; the `ge=0, le=100` bound
and the `validate_score` validator are declared on `GradeBase` only,
which `ScoreCreate` does not inherit from. -/

/-- Validated `POST /score` body. -/
structure ScoreCreate where
  first_name : String
  last_name : String
  faculty : String
  course : String
  score : Int
deriving Repr, DecidableEq

/-- Pydantic validation of the `score` field of `ScoreCreate`
(`ScoreBase.score : int`): every integer is accepted — the schema
declares no range constraint on it. -/
def scoreCreateScoreAccepts (_score : Int) : Bool := true

/-- Pydantic validation of the `score` field of `GradeBase`
(`Field(..., ge=0, le=100)` together with `validate_score`). -/
def gradeBaseScoreAccepts (score : Int) : Bool :=
  0 ≤ score && score ≤ 100

/-! ## POST /score handler (`create_score`, `app/api/endpoints/score.py`)

The source reads

    grade = repo.add_score(first_name, ..., score)
    await db.commit()
    params = score.model_dump()
    params["id"] = grade.id

`ScoreRepository.add_score` is an `async def`, and the call is **not**
awaited: the call merely builds a coroutine object and none of the
repository's statements run, so the session has no pending changes when
`db.commit()` runs.  `grade` is bound to the coroutine object, and
`grade.id` raises `AttributeError`, which FastAPI surfaces as a 500
response. -/

/-- A Python value appearing in the handler: either a real grade row or
an un-awaited coroutine object. -/
inductive PyVal where
  | gradeVal (g : Grade)
  | coroutine
deriving Repr, DecidableEq

/-- Python errors escaping a handler. -/
inductive PyError where
  /-- attribute access on an object lacking the attribute. -/
  | attributeError
deriving Repr, DecidableEq

/-- Attribute access `grade.id`: succeeds on a grade row, raises
`AttributeError` on a coroutine object. -/
def pyGradeId : PyVal → Except PyError Nat
  | .gradeVal g => .ok g.id
  | .coroutine => .error .attributeError

/-- Successful response body of `POST /score`. -/
structure ScoreResponse where
  id : Nat
  first_name : String
  last_name : String
  faculty : String
  course : String
  score : Int
deriving Repr, DecidableEq

/-- `create_score`: the committed store after the request, paired with
the outcome.  `repo.add_score(...)` is not awaited, so it contributes
no effect and yields a coroutine object; `await db.commit()` commits a
session with no pending changes; `grade.id` then raises. -/
def create_score (db : ScoreDB) (body : ScoreCreate) :
    Except PyError (ScoreResponse × ScoreDB) × ScoreDB :=
  let grade : PyVal := .coroutine
  let committed := db
  let result : Except PyError (ScoreResponse × ScoreDB) := do
    let gid ← pyGradeId grade
    .ok ({ id := gid, first_name := body.first_name,
           last_name := body.last_name, faculty := body.faculty,
           course := body.course, score := body.score }, committed)
  (result, committed)

/-! ## DELETE /score/{id} handler (`delete_score`)

`get_score_by_id` is imported from `app.db.base` but that module does
not define it; it is modelled from the spec below.  In the handler,
`db.delete(score)` builds a coroutine that is never awaited, so the
deletion is never registered with the session; `await db.flush()` then
flushes a session with no pending changes, and `get_db` closes the
session without ever committing, so the transaction is rolled back and
the committed store is unchanged on every path. -/

/-- Modelled from the spec: `get_score_by_id` is referenced by the
delete handler but missing from the source tree.  Per the spec's
`DELETE /score/{id} -> 204; 404 if id unknown`, it resolves the grade
row by its primary key. -/
def get_score_by_id (db : ScoreDB) (score_id : Nat) : Option Grade :=
  db.grades.find? (fun g => g.id == score_id)

/-- HTTP status of the delete handler's response. -/
inductive DeleteOutcome where
  | noContent
  | notFound
deriving Repr, DecidableEq

/-- `delete_score`: outcome plus the committed store after the request
completes.  On the found branch the un-awaited `db.delete(score)`
performs nothing, the flush has nothing to send, and the session is
closed without a commit, so the committed store is returned as-is. -/
def delete_score (db : ScoreDB) (score_id : Nat) :
    DeleteOutcome × ScoreDB :=
  match get_score_by_id db score_id with
  | none => (.notFound, db)
  | some _ =>
      let flushed := db
      (.noContent, flushed)

/-! ## Credential hasher (`app/core/security.py`)

`get_hash(pwd, salt)` is `hashlib.md5(f"{pwd}{salt}".encode("utf8")).hexdigest()`.
MD5 (RFC 1321) is embedded below over byte lists, with 32-bit words as
naturals reduced modulo `2^32`. -/

/-- MD5 round constants `K[i] = floor(2^32 * |sin(i+1)|)` (RFC 1321). -/
def md5K : List Nat :=
  [0xd76aa478, 0xe8c7b756, 0x242070db, 0xc1bdceee,
   0xf57c0faf, 0x4787c62a, 0xa8304613, 0xfd469501,
   0x698098d8, 0x8b44f7af, 0xffff5bb1, 0x895cd7be,
   0x6b901122, 0xfd987193, 0xa679438e, 0x49b40821,
   0xf61e2562, 0xc040b340, 0x265e5a51, 0xe9b6c7aa,
   0xd62f105d, 0x02441453, 0xd8a1e681, 0xe7d3fbc8,
   0x21e1cde6, 0xc33707d6, 0xf4d50d87, 0x455a14ed,
   0xa9e3e905, 0xfcefa3f8, 0x676f02d9, 0x8d2a4c8a,
   0xfffa3942, 0x8771f681, 0x6d9d6122, 0xfde5380c,
   0xa4beea44, 0x4bdecfa9, 0xf6bb4b60, 0xbebfbc70,
   0x289b7ec6, 0xeaa127fa, 0xd4ef3085, 0x04881d05,
   0xd9d4d039, 0xe6db99e5, 0x1fa27cf8, 0xc4ac5665,
   0xf4292244, 0x432aff97, 0xab9423a7, 0xfc93a039,
   0x655b59c3, 0x8f0ccc92, 0xffeff47d, 0x85845dd1,
   0x6fa87e4f, 0xfe2ce6e0, 0xa3014314, 0x4e0811a1,
   0xf7537e82, 0xbd3af235, 0x2ad7d2bb, 0xeb86d391]

/-- MD5 per-round left-rotation amounts (RFC 1321). -/
def md5S : List Nat :=
  [7, 12, 17, 22, 7, 12, 17, 22, 7, 12, 17, 22, 7, 12, 17, 22,
   5, 9, 14, 20, 5, 9, 14, 20, 5, 9, 14, 20, 5, 9, 14, 20,
   4, 11, 16, 23, 4, 11, 16, 23, 4, 11, 16, 23, 4, 11, 16, 23,
   6, 10, 15, 21, 6, 10, 15, 21, 6, 10, 15, 21, 6, 10, 15, 21]

/-- 32-bit addition. -/
def add32 (a b : Nat) : Nat := (a + b) % 2 ^ 32

/-- 32-bit complement (inputs are kept below `2^32`). -/
def not32 (a : Nat) : Nat := (2 ^ 32 - 1) ^^^ a

/-- 32-bit left rotation. -/
def rotl32 (x s : Nat) : Nat := ((x <<< s) ||| (x >>> (32 - s))) % 2 ^ 32

/-- Little-endian 32-bit word number `j` of a byte chunk. -/
def leWord (chunk : List Nat) (j : Nat) : Nat :=
  chunk.getD (4 * j) 0 + 256 * chunk.getD (4 * j + 1) 0 +
    65536 * chunk.getD (4 * j + 2) 0 + 16777216 * chunk.getD (4 * j + 3) 0

/-- One of the 64 MD5 rounds applied to the working state `(a,b,c,d)`,
reading message word `M[g(i)]` of the current chunk. -/
def md5Round (chunk : List Nat) (st : Nat × Nat × Nat × Nat) (i : Nat) :
    Nat × Nat × Nat × Nat :=
  let (a, b, c, d) := st
  let (f, g) :=
    if i < 16 then ((b &&& c) ||| (not32 b &&& d), i)
    else if i < 32 then ((d &&& b) ||| (not32 d &&& c), (5 * i + 1) % 16)
    else if i < 48 then (b ^^^ c ^^^ d, (3 * i + 5) % 16)
    else (c ^^^ (b ||| not32 d), (7 * i) % 16)
  let f := (f + a + md5K.getD i 0 + leWord chunk g) % 2 ^ 32
  (d, add32 b (rotl32 f (md5S.getD i 0)), b, c)

/-- Process one 64-byte chunk: run the 64 rounds and add the result to
the incoming state, word-wise modulo `2^32`. -/
def md5Chunk (st : Nat × Nat × Nat × Nat) (chunk : List Nat) :
    Nat × Nat × Nat × Nat :=
  let r := (List.range 64).foldl (md5Round chunk) st
  (add32 st.1 r.1, add32 st.2.1 r.2.1, add32 st.2.2.1 r.2.2.1,
   add32 st.2.2.2 r.2.2.2)

/-- MD5 padding: append `0x80`, then zero bytes until the length is 56
modulo 64, then the original length in bits as 8 little-endian bytes. -/
def md5Pad (msg : List Nat) : List Nat :=
  let bitLen := (msg.length * 8) % 2 ^ 64
  let padLen := (119 - msg.length % 64) % 64
  msg ++ [0x80] ++ List.replicate padLen 0 ++
    (List.range 8).map (fun i => bitLen / 256 ^ i % 256)

/-- Split a byte list into chunks of 64 (structural recursion on a
fuel bound; each step consumes at least one byte, so the list's length
is enough fuel). -/
def chunks64Aux : Nat → List Nat → List (List Nat)
  | 0, _ => []
  | _ + 1, [] => []
  | fuel + 1, b :: rest =>
      ((b :: rest).take 64) :: chunks64Aux fuel ((b :: rest).drop 64)

/-- Split a byte list into chunks of 64. -/
def chunks64 (l : List Nat) : List (List Nat) := chunks64Aux l.length l

/-- The four final MD5 state words of a byte message. -/
def md5Words (msg : List Nat) : Nat × Nat × Nat × Nat :=
  (chunks64 (md5Pad msg)).foldl md5Chunk
    (0x67452301, 0xefcdab89, 0x98badcfe, 0x10325476)

/-- Lowercase hex digit. -/
def hexChar (n : Nat) : Char :=
  if n < 10 then Char.ofNat (48 + n) else Char.ofNat (87 + n % 16)

/-- A byte as two lowercase hex digits. -/
def byteHex (b : Nat) : List Char := [hexChar (b / 16 % 16), hexChar (b % 16)]

/-- A 32-bit word serialized as four little-endian bytes in hex. -/
def wordHexLE (w : Nat) : List Char :=
  byteHex (w % 256) ++ byteHex (w / 256 % 256) ++ byteHex (w / 65536 % 256) ++
    byteHex (w / 16777216 % 256)

/-- `hashlib.md5(...).hexdigest()` of a byte message. -/
def md5hex (msg : List Nat) : String :=
  String.mk (wordHexLE (md5Words msg).1 ++ wordHexLE (md5Words msg).2.1 ++
    wordHexLE (md5Words msg).2.2.1 ++ wordHexLE (md5Words msg).2.2.2)

/-- UTF-8 encoding of one code point (Python `str.encode("utf8")`). -/
def utf8Bytes (c : Char) : List Nat :=
  let n := c.toNat
  if n < 0x80 then [n]
  else if n < 0x800 then [0xc0 + n / 64, 0x80 + n % 64]
  else if n < 0x10000 then
    [0xe0 + n / 4096, 0x80 + n / 64 % 64, 0x80 + n % 64]
  else
    [0xf0 + n / 262144, 0x80 + n / 4096 % 64, 0x80 + n / 64 % 64,
     0x80 + n % 64]

/-- UTF-8 encoding of a string. -/
def strUtf8 (s : String) : List Nat := s.data.flatMap utf8Bytes

/-- `get_hash(pwd, salt)`: MD5 hexdigest of the UTF-8 bytes of the
concatenation of password and salt. -/
def get_hash (pwd salt : String) : String := md5hex (strUtf8 (pwd ++ salt))

/-- `get_password_hash(pwd)`: the source draws a fresh 32-character
salt with `random.choices`; the drawn salt enters the model as an
explicit argument, making the randomness an oracle. -/
def get_password_hash (pwd salt : String) : String × String :=
  (get_hash pwd salt, salt)

/-- `verify_password(password, hash, salt)`. -/
def verify_password (password hash salt : String) : Bool :=
  hash == get_hash password salt

/-! ## Credential shape validation (`is_valid_uuid`, `app/core/security.py`)

`is_valid_uuid(s, version=4)` builds `uuid.UUID(s, version=4)` and
returns whether `str(uuid_obj) == s`.  CPython's `UUID(hex=s)` strips
every occurrence of `urn:` and `uuid:`, strips surrounding braces,
removes hyphens, requires 32 remaining characters, parses them as a
base-16 integer, then (because `version` is given) forces the variant
bits to `10` and the version nibble to the requested version;
`str(...)` renders the 128-bit value as 32 lowercase hex digits grouped
8-4-4-4-12 by hyphens.  The base-16 parser below accepts exactly the
ASCII hex digits; CPython's `int(_, 16)` is slightly more liberal
(signs, underscores, whitespace, a `0x` prefix, non-ASCII digits), but
any such input that CPython parses is not itself in the canonical
rendered form, so the final string comparison returns `False` for it
either way and the two predicates agree on every input. -/

/-- `str.replace(pattern, '')` on character lists, for a non-empty
pattern: remove every left-to-right, non-overlapping occurrence of the
pattern.  Structural recursion on a fuel bound; every step consumes at
least one character, so the list's length is enough fuel. -/
def removeSubstrAux (patt : List Char) : Nat → List Char → List Char
  | 0, l => l
  | _ + 1, [] => []
  | fuel + 1, c :: rest =>
      if patt.isPrefixOf (c :: rest) then
        removeSubstrAux patt fuel ((c :: rest).drop patt.length)
      else c :: removeSubstrAux patt fuel rest

/-- `s.replace(patt, '')` for a non-empty pattern. -/
def removeSubstr (s patt : String) : String :=
  String.mk (removeSubstrAux patt.data s.data.length s.data)

/-- Value of one ASCII hex digit. -/
def hexDigitVal (c : Char) : Option Nat :=
  if 48 ≤ c.toNat ∧ c.toNat ≤ 57 then some (c.toNat - 48)
  else if 97 ≤ c.toNat ∧ c.toNat ≤ 102 then some (c.toNat - 87)
  else if 65 ≤ c.toNat ∧ c.toNat ≤ 70 then some (c.toNat - 55)
  else none

/-- Parse a base-16 natural from ASCII hex digits. -/
def parseHex (l : List Char) : Option Nat :=
  l.foldl (fun acc c => do pure (16 * (← acc) + (← hexDigitVal c)))
    (some 0)

/-- `str.strip('{}')`: drop leading and trailing brace characters. -/
def stripBraces (l : List Char) : List Char :=
  let isBrace : Char → Bool := fun c => c.toNat == 123 || c.toNat == 125
  ((l.dropWhile isBrace).reverse.dropWhile isBrace).reverse

/-- Clear the bits of `m` in `x`. -/
def clearBits (x m : Nat) : Nat := x ^^^ (x &&& m)

/-- Force the RFC 4122 variant bits and the version nibble to 4, as
`uuid.UUID(..., version=4)` does on the parsed 128-bit integer. -/
def forceVersion4 (n : Nat) : Nat :=
  let n := clearBits n (0xc000 <<< 48) ||| (0x8000 <<< 48)
  clearBits n (0xf000 <<< 64) ||| (4 <<< 76)

/-- Fixed-width lowercase hex rendering, most significant digit first. -/
def natHex (width n : Nat) : List Char :=
  (List.range width).map (fun i => hexChar (n / 16 ^ (width - 1 - i) % 16))

/-- `str(uuid_obj)`: 32 lowercase hex digits grouped 8-4-4-4-12. -/
def uuidStr (n : Nat) : String :=
  let h := natHex 32 n
  String.mk (h.take 8 ++ [Char.ofNat 45] ++ (h.drop 8).take 4 ++
    [Char.ofNat 45] ++ (h.drop 12).take 4 ++ [Char.ofNat 45] ++
    (h.drop 16).take 4 ++ [Char.ofNat 45] ++ h.drop 20)

/-- `is_valid_uuid(s)` with the default `version=4`. -/
def is_valid_uuid (s : String) : Bool :=
  let hex := removeSubstr (removeSubstr s "urn:") "uuid:"
  let hex := String.mk (stripBraces hex.data)
  let hex := (removeSubstr hex "-").data
  if hex.length ≠ 32 then false
  else
    match parseHex hex with
    | none => false
    | some n => uuidStr (forceVersion4 n) == s

/-! ## Auth data model (`app/db/base.py`)

`User.user_id` and `UserToken.token_id` are UUID columns; the model
keeps the user id opaque as a natural and the token id as the bearer
credential string.  `expired_at` is a datetime; time is modelled as an
integer timeline. -/

/-- ORM row of table `users` (the fields the embedded operations
touch). -/
structure User where
  user_id : Nat
  username : String
  password : String
  salt : String
deriving Repr, DecidableEq

/-- ORM row of table `user_tokens`. -/
structure UserToken where
  token_id : String
  expired_at : Int
  user_id : Nat
deriving Repr, DecidableEq

/-- `UserToken.is_expired`: `self.expired_at < datetime.now()`,
evaluated at call time against the current time `now`. -/
def is_expired (t : UserToken) (now : Int) : Bool := t.expired_at < now

/-- The persistent auth store. -/
structure AuthDB where
  users : List User
  tokens : List UserToken
deriving Repr, DecidableEq

/-- HTTP-level failures of the embedded auth operations. -/
inductive HttpError where
  /-- 401 `Could not validate credentials`. -/
  | unauthenticated
  /-- 400 `Incorrect password`. -/
  | badRequest
  /-- unhandled exception (`MultipleResultsFound`, `AttributeError`,
  ...) surfacing as a 500. -/
  | internalError
deriving Repr, DecidableEq

/-- `get_token` (`app/core/security.py`): reject a credential that is
not shaped like a version-4 UUID before touching storage, then look the
token up by exact `token_id` match; 401 when absent.  No expiry
check. -/
def get_token (db : AuthDB) (cred : String) : Except HttpError UserToken :=
  if ¬is_valid_uuid cred then .error .unauthenticated
  else
    match scalar_one_or_none
      (db.tokens.filter (fun t => t.token_id == cred)) with
    | .error _ => .error .internalError
    | .ok none => .error .unauthenticated
    | .ok (some t) => .ok t

/-- `get_token_if_not_expired`: as `get_token`, but additionally 401
when the stored token is expired at the current time. -/
def get_token_if_not_expired (db : AuthDB) (cred : String) (now : Int) :
    Except HttpError UserToken :=
  if ¬is_valid_uuid cred then .error .unauthenticated
  else
    match scalar_one_or_none
      (db.tokens.filter (fun t => t.token_id == cred)) with
    | .error _ => .error .internalError
    | .ok none => .error .unauthenticated
    | .ok (some t) =>
      if is_expired t now then .error .unauthenticated else .ok t

/-- `get_user_by_id` (`app/db/base.py`). -/
def get_user_by_id (db : AuthDB) (idx : Nat) : Option User :=
  db.users.find? (fun u => u.user_id == idx)

/-- Response body of the token-returning endpoints. -/
structure TokenOut where
  access_token : String
  expires_at : Int
deriving Repr, DecidableEq

/-- `refresh_token` (`app/api/endpoints/user.py`): resolve the token
through `get_token` (no expiry check), look up the owning user
(attribute access on a missing user raises, surfacing as a 500),
replace the token row's identifier and expiry in place, commit.
`create_access_token` draws `uuid4()` and `now + delta`; the drawn
identifier and computed expiry enter as the oracle arguments `newId`
and `newExp`. -/
def refresh_token (db : AuthDB) (cred : String) (newId : String)
    (newExp : Int) : Except HttpError (TokenOut × AuthDB) :=
  match get_token db cred with
  | .error e => .error e
  | .ok current_token =>
  match get_user_by_id db current_token.user_id with
  | none => .error .internalError
  | some _user =>
      let tokens2 := db.tokens.map (fun t =>
        if t.token_id == cred then
          { t with token_id := newId, expired_at := newExp } else t)
      .ok ({ access_token := newId, expires_at := newExp },
           { db with tokens := tokens2 })

/-- `change_password` (`app/api/endpoints/user.py`): resolve a live
(non-expired) token, check the old password, then (first transaction)
set the new password hash and salt and **commit**, then (second
transaction) delete every token row of the user and commit again.  The
result carries the list of successively committed states, ending in
the final one; `newSalt` is the salt oracle of `get_password_hash`. -/
def change_password (db : AuthDB) (cred : String) (now : Int)
    (old_password new_password newSalt : String) :
    Except HttpError (List AuthDB) :=
  match get_token_if_not_expired db cred now with
  | .error e => .error e
  | .ok current_token =>
  match get_user_by_id db current_token.user_id with
  | none => .error .internalError
  | some user =>
      if ¬verify_password old_password user.password user.salt then
        .error .badRequest
      else
        let (hashed, salt) := get_password_hash new_password newSalt
        let users2 := db.users.map (fun u =>
          if u.user_id == user.user_id then
            { u with password := hashed, salt := salt } else u)
        let committed1 : AuthDB := { db with users := users2 }
        let tokens2 := committed1.tokens.filter
          (fun t => !(t.user_id == user.user_id))
        let committed2 : AuthDB := { committed1 with tokens := tokens2 }
        .ok [committed1, committed2]

/-! ## Claim theorems -/

/-- C1: the claim says every authenticated, well-formed `POST /score`
persists the grade and returns 201 with the submitted score.  The code
never awaits `repo.add_score(...)`, so for every store and every body
the handler raises `AttributeError` (a 500) and the committed store is
unchanged — in particular nothing is persisted for the spec's example
with score 90. -/
theorem create_score_crashes_unpersisted (db : ScoreDB) (body : ScoreCreate) :
    create_score db body = (.error .attributeError, db) := rfl

/-- C2: the claim says a score outside [0,100] (e.g. 150) is rejected
with a 422 validation error.  `ScoreCreate` inherits its bare `int`
score field from `ScoreBase` and carries no range constraint, so
validation accepts 150; the `ge=0, le=100` bound that would reject it
lives only on `GradeBase`, which the endpoint does not use. -/
theorem scoreCreate_accepts_150 :
    scoreCreateScoreAccepts 150 = true ∧ gradeBaseScoreAccepts 150 = false := by
  decide

/-- C4 counterexample: the claim says `is_expired` is true when the
current time equals `expired_at` exactly; the code compares with a
strict `<`, so a token expiring exactly now is reported unexpired. -/
theorem is_expired_false_at_boundary :
    ¬ (∀ (t : UserToken) (now : Int),
        is_expired t now = true ↔ t.expired_at ≤ now) := by
  intro h
  have h0 := (h ⟨"t", 0, 0⟩ 0).mpr (le_refl 0)
  simp [is_expired] at h0

/-- C4 (amended): `is_expired(token)` is true iff the current time is
strictly after `expired_at` (false at exact equality), and once true it
stays true as time advances. -/
theorem is_expired_iff_strict_and_monotone (t : UserToken) (now later : Int)
    (h : now ≤ later) :
    (is_expired t now = true ↔ t.expired_at < now) ∧
    (is_expired t now = true → is_expired t later = true) := by
  constructor
  · simp [is_expired]
  · intro hnow
    simp only [is_expired, decide_eq_true_eq] at hnow ⊢
    exact lt_of_lt_of_le hnow h

/-- Witness for the amended C4 theorem at `expired_at = 3`, `now = 4`,
`later = 7`. -/
theorem is_expired_iff_strict_and_monotone_witness :
    (4 : Int) ≤ 7 ∧
    ((is_expired ⟨"t", 3, 0⟩ 4 = true ↔ (3 : Int) < 4) ∧
      (is_expired ⟨"t", 3, 0⟩ 4 = true → is_expired ⟨"t", 3, 0⟩ 7 = true)) :=
  ⟨by decide, is_expired_iff_strict_and_monotone ⟨"t", 3, 0⟩ 4 7 (by decide)⟩

/-- C10: for every existing grade id, the delete handler responds 204
yet the committed store is unchanged and the grade row is still
resolvable afterwards — the `db.delete` coroutine is never awaited and
the session is only flushed, never committed. -/
theorem delete_score_leaves_store_unchanged (db : ScoreDB) (sid : Nat)
    (g : Grade) (hg : get_score_by_id db sid = some g) :
    delete_score db sid = (.noContent, db) ∧
      get_score_by_id (delete_score db sid).2 sid = some g := by
  simp [delete_score, hg]

/-- Witness for C10 on a one-grade store. -/
theorem delete_score_leaves_store_unchanged_witness :
    get_score_by_id ⟨[], [], [], [⟨1, 1, 1, 90⟩]⟩ 1 = some ⟨1, 1, 1, 90⟩ ∧
    (delete_score ⟨[], [], [], [⟨1, 1, 1, 90⟩]⟩ 1 =
        (.noContent, ⟨[], [], [], [⟨1, 1, 1, 90⟩]⟩) ∧
      get_score_by_id (delete_score ⟨[], [], [], [⟨1, 1, 1, 90⟩]⟩ 1).2 1 =
        some ⟨1, 1, 1, 90⟩) :=
  ⟨by decide,
   delete_score_leaves_store_unchanged ⟨[], [], [], [⟨1, 1, 1, 90⟩]⟩ 1
     ⟨1, 1, 1, 90⟩ (by decide)⟩

/-- C8: `get_token` fails with the Unauthenticated error exactly when
the credential is not shaped like a token identifier (checked before
any lookup, hence for every store) or no stored token carries it; it
never consults expiry, so a stored token that is already expired at the
current time is still returned, and `refresh_token` succeeds on it,
minting the fresh identifier as the new access token. -/
theorem get_token_spec (db : AuthDB) (cred : String) (t : UserToken)
    (now : Int) (newId : String) (newExp : Int)
    (hval : is_valid_uuid cred = true)
    (hfind : db.tokens.filter (fun x => x.token_id == cred) = [t])
    (huser : ∃ u, get_user_by_id db t.user_id = some u)
    (_hexp : is_expired t now = true) :
    (∀ (db2 : AuthDB) (c2 : String), is_valid_uuid c2 = false →
      get_token db2 c2 = .error .unauthenticated) ∧
    (∀ (db2 : AuthDB) (c2 : String), is_valid_uuid c2 = true →
      db2.tokens.filter (fun x => x.token_id == c2) = [] →
      get_token db2 c2 = .error .unauthenticated) ∧
    get_token db cred = .ok t ∧
    (∃ out db2, refresh_token db cred newId newExp = .ok (out, db2) ∧
      out.access_token = newId ∧ out.expires_at = newExp) := by
  obtain ⟨u, hu⟩ := huser
  refine ⟨?_, ?_, ?_, ?_⟩
  · intro db2 c2 h2
    simp [get_token, h2]
  · intro db2 c2 h2 hnil
    simp [get_token, h2, hnil, scalar_one_or_none]
  · simp [get_token, hval, hfind, scalar_one_or_none]
  · exact ⟨{ access_token := newId, expires_at := newExp },
      { db with tokens := db.tokens.map (fun x =>
        if x.token_id == cred then
          { x with token_id := newId, expired_at := newExp } else x) },
      by simp [refresh_token, get_token, hval, hfind, scalar_one_or_none, hu],
      rfl, rfl⟩

/-- Witness for C8: a stored, expired token under a canonical v4 UUID
credential. -/
theorem get_token_spec_witness :
    is_valid_uuid "c9bf9e57-1685-4c89-bafb-ff5af830be8a" = true ∧
    (AuthDB.tokens ⟨[⟨1, "alice", "h", "s"⟩],
        [⟨"c9bf9e57-1685-4c89-bafb-ff5af830be8a", 0, 1⟩]⟩).filter
      (fun x => x.token_id == "c9bf9e57-1685-4c89-bafb-ff5af830be8a") =
      [⟨"c9bf9e57-1685-4c89-bafb-ff5af830be8a", 0, 1⟩] ∧
    (∃ u, get_user_by_id ⟨[⟨1, "alice", "h", "s"⟩],
        [⟨"c9bf9e57-1685-4c89-bafb-ff5af830be8a", 0, 1⟩]⟩ 1 = some u) ∧
    is_expired ⟨"c9bf9e57-1685-4c89-bafb-ff5af830be8a", 0, 1⟩ 5 = true ∧
    ((∀ (db2 : AuthDB) (c2 : String), is_valid_uuid c2 = false →
        get_token db2 c2 = .error .unauthenticated) ∧
      (∀ (db2 : AuthDB) (c2 : String), is_valid_uuid c2 = true →
        db2.tokens.filter (fun x => x.token_id == c2) = [] →
        get_token db2 c2 = .error .unauthenticated) ∧
      get_token ⟨[⟨1, "alice", "h", "s"⟩],
          [⟨"c9bf9e57-1685-4c89-bafb-ff5af830be8a", 0, 1⟩]⟩
          "c9bf9e57-1685-4c89-bafb-ff5af830be8a" =
        .ok ⟨"c9bf9e57-1685-4c89-bafb-ff5af830be8a", 0, 1⟩ ∧
      (∃ out db2, refresh_token ⟨[⟨1, "alice", "h", "s"⟩],
            [⟨"c9bf9e57-1685-4c89-bafb-ff5af830be8a", 0, 1⟩]⟩
            "c9bf9e57-1685-4c89-bafb-ff5af830be8a" "newid" 100 =
          .ok (out, db2) ∧
        out.access_token = "newid" ∧ out.expires_at = 100)) :=
  ⟨by decide, by decide, ⟨⟨1, "alice", "h", "s"⟩, by decide⟩, by decide,
   get_token_spec _ _ _ 5 "newid" 100 (by decide) (by decide)
     ⟨⟨1, "alice", "h", "s"⟩, by decide⟩ (by decide)⟩

/-- Concrete auth store for exercising `change_password`: one user
whose stored hash matches password `oldpw` under salt `s0`, and one
live token owned by that user. -/
def cpUser : User := ⟨1, "alice", get_hash "oldpw" "s0", "s0"⟩

/-- The bearer credential of `cpUser`'s stored token. -/
def cpCred : String := "c9bf9e57-1685-4c89-bafb-ff5af830be8a"

/-- The concrete auth store of the `change_password` scenario. -/
def cpDB : AuthDB := ⟨[cpUser], [⟨cpCred, 10, 1⟩]⟩

set_option maxRecDepth 10000 in
/-- C3 counterexample: the claim says the token deletion is atomic with
the password update, with no reachable intermediate state holding the
new password alongside live old tokens.  Running `change_password` on a
concrete store commits two states in sequence, and the first committed
state already stores the new password hash while the old token row is
still present — the deletion happens in a separate, later
transaction. -/
theorem change_password_intermediate_live_token :
    change_password cpDB cpCred 5 "oldpw" "newpw" "s1" =
      .ok [⟨[⟨1, "alice", get_hash "newpw" "s1", "s1"⟩], [⟨cpCred, 10, 1⟩]⟩,
           ⟨[⟨1, "alice", get_hash "newpw" "s1", "s1"⟩], []⟩] := by
  rfl

/-- C3 (amended): a successful change-password does delete every token
row of the user and afterwards presenting any previously issued token
of that user fails with the Unauthenticated error, but the deletion is
committed in a second transaction after the password update: the first
committed state still carries all the old token rows alongside the new
password, so the revocation is not atomic with the update. -/
theorem change_password_revokes_in_second_commit (db : AuthDB)
    (cred : String) (now : Int) (oldPw newPw salt : String)
    (t : UserToken) (u : User)
    (hval : is_valid_uuid cred = true)
    (hfind : db.tokens.filter (fun x => x.token_id == cred) = [t])
    (hnotexp : is_expired t now = false)
    (hu : get_user_by_id db t.user_id = some u)
    (hverify : verify_password oldPw u.password u.salt = true)
    (hpk : (db.tokens.map (·.token_id)).Nodup) :
    ∃ mid fin, change_password db cred now oldPw newPw salt = .ok [mid, fin] ∧
      mid.tokens = db.tokens ∧
      fin.tokens.filter (fun x => x.user_id == u.user_id) = [] ∧
      (∀ tok ∈ db.tokens, tok.user_id = u.user_id →
        get_token fin tok.token_id = .error .unauthenticated) := by
  have htok : get_token_if_not_expired db cred now = .ok t := by
    simp [get_token_if_not_expired, hval, hfind, scalar_one_or_none, hnotexp]
  refine ⟨{ db with users := db.users.map (fun x =>
      if x.user_id == u.user_id then
        { x with password := get_hash newPw salt, salt := salt } else x) },
    { db with
      users := db.users.map (fun x =>
        if x.user_id == u.user_id then
          { x with password := get_hash newPw salt, salt := salt } else x),
      tokens := db.tokens.filter (fun x => !(x.user_id == u.user_id)) },
    ?_, rfl, ?_, ?_⟩
  · simp only [change_password, htok, hu, hverify]
    simp [get_password_hash]
  · simp only [List.filter_filter]
    refine List.filter_eq_nil_iff.mpr ?_
    intro x _
    simp
  · intro tok htokmem htokuid
    by_cases hv : is_valid_uuid tok.token_id
    · have hnil : (db.tokens.filter (fun x => !(x.user_id == u.user_id))).filter
          (fun x => x.token_id == tok.token_id) = [] := by
        simp only [List.filter_filter]
        refine List.filter_eq_nil_iff.mpr ?_
        intro x hx
        intro hcontra
        simp only [Bool.and_eq_true, beq_iff_eq, Bool.not_eq_true'] at hcontra
        obtain ⟨hxtid, hxuid⟩ := hcontra
        have hxeq : x = tok :=
          List.inj_on_of_nodup_map hpk hx htokmem hxtid
        rw [hxeq, htokuid] at hxuid
        simp at hxuid
      simp [get_token, hv, hnil, scalar_one_or_none]
    · simp [get_token, hv]

/-- Witness for the amended C3 theorem on the concrete store `cpDB`. -/
theorem change_password_revokes_in_second_commit_witness :
    is_valid_uuid cpCred = true ∧
    cpDB.tokens.filter (fun x => x.token_id == cpCred) = [⟨cpCred, 10, 1⟩] ∧
    is_expired ⟨cpCred, 10, 1⟩ 5 = false ∧
    get_user_by_id cpDB 1 = some cpUser ∧
    verify_password "oldpw" cpUser.password cpUser.salt = true ∧
    (cpDB.tokens.map (·.token_id)).Nodup ∧
    (∃ mid fin, change_password cpDB cpCred 5 "oldpw" "newpw" "s1" =
        .ok [mid, fin] ∧
      mid.tokens = cpDB.tokens ∧
      fin.tokens.filter (fun x => x.user_id == cpUser.user_id) = [] ∧
      (∀ tok ∈ cpDB.tokens, tok.user_id = cpUser.user_id →
        get_token fin tok.token_id = .error .unauthenticated)) :=
  ⟨by decide, by decide, by decide, rfl, by simp [verify_password, cpUser],
   by decide,
   change_password_revokes_in_second_commit cpDB cpCred 5 "oldpw" "newpw" "s1"
     ⟨cpCred, 10, 1⟩ cpUser (by decide) (by decide) (by decide) rfl
     (by simp [verify_password, cpUser]) (by decide)⟩

/-- Each word of the MD5 state is below `2^32`. -/
theorem md5Words_lt (msg : List Nat) :
    (md5Words msg).1 < 2 ^ 32 ∧ (md5Words msg).2.1 < 2 ^ 32 ∧
    (md5Words msg).2.2.1 < 2 ^ 32 ∧ (md5Words msg).2.2.2 < 2 ^ 32 := by
  have hstep : ∀ (l : List (List Nat)) (st : Nat × Nat × Nat × Nat),
      st.1 < 2 ^ 32 → st.2.1 < 2 ^ 32 → st.2.2.1 < 2 ^ 32 →
      st.2.2.2 < 2 ^ 32 →
      (l.foldl md5Chunk st).1 < 2 ^ 32 ∧ (l.foldl md5Chunk st).2.1 < 2 ^ 32 ∧
      (l.foldl md5Chunk st).2.2.1 < 2 ^ 32 ∧
      (l.foldl md5Chunk st).2.2.2 < 2 ^ 32 := by
    intro l
    induction l with
    | nil => intro st h1 h2 h3 h4; exact ⟨h1, h2, h3, h4⟩
    | cons c rest ih =>
        intro st _ _ _ _
        refine ih (md5Chunk st c) ?_ ?_ ?_ ?_ <;>
          exact Nat.mod_lt _ (by norm_num)
  exact hstep _ _ (by norm_num) (by norm_num) (by norm_num) (by norm_num)

/-- The MD5 state packed into a finite type: the digest of any message
lives in a finite codomain. -/
def md5Fin (msg : List Nat) : Fin (2 ^ 32) × Fin (2 ^ 32) × Fin (2 ^ 32) × Fin (2 ^ 32) :=
  ⟨⟨(md5Words msg).1, (md5Words_lt msg).1⟩,
   ⟨(md5Words msg).2.1, (md5Words_lt msg).2.1⟩,
   ⟨(md5Words msg).2.2.1, (md5Words_lt msg).2.2.1⟩,
   ⟨(md5Words msg).2.2.2, (md5Words_lt msg).2.2.2⟩⟩

/-- Password family with pairwise distinct members used in the
pigeonhole argument. -/
def collPwd (n : Nat) : String := String.mk (List.replicate n 'a')

/-- C9 counterexample: the claim says every password different from the
original fails verification.  Negation: `get_hash` post-composes a hex
rendering on a digest drawn from the finite set of four 32-bit words,
while passwords are infinitely many, so two distinct passwords share a
digest under the same salt and the wrong one verifies.  The collision is
obtained by pigeonhole, not exhibited explicitly. -/
theorem verify_password_collision_exists :
    ¬ (∀ (p s p2 : String), p2 ≠ p →
        verify_password p2 (get_hash p s) s = false) := by
  intro h
  obtain ⟨i, j, hne, heq⟩ := Finite.exists_ne_map_eq_of_infinite
    (fun n : ℕ => md5Fin (strUtf8 (collPwd n ++ "")))
  have hwords : md5Words (strUtf8 (collPwd i ++ "")) =
      md5Words (strUtf8 (collPwd j ++ "")) := by
    have h1 := congrArg (fun q => q.1.1) heq
    have h2 := congrArg (fun q => q.2.1.1) heq
    have h3 := congrArg (fun q => q.2.2.1.1) heq
    have h4 := congrArg (fun q => q.2.2.2.1) heq
    simp only [md5Fin] at h1 h2 h3 h4
    exact Prod.ext h1 (Prod.ext h2 (Prod.ext h3 h4))
  have hhash : get_hash (collPwd i) "" = get_hash (collPwd j) "" := by
    simp only [get_hash, md5hex]
    rw [hwords]
  have hpne : collPwd j ≠ collPwd i := by
    intro hc
    apply hne
    have hdata := congrArg (fun s => s.data.length) hc
    simpa [collPwd] using hdata.symm
  have hfalse := h (collPwd i) "" (collPwd j) hpne
  rw [verify_password, hhash] at hfalse
  simp at hfalse

/-- C9 (amended): `verify(password, hash(password, salt), salt)` is
true for every password and salt, and verifying a candidate password
against a stored digest succeeds exactly when the candidate's digest
under the stored salt coincides with the stored digest — so a different
password is rejected precisely when its digest differs, which cannot
hold for *every* different password since the digest space is finite;
determinism of `get_hash` is definitional, it is a pure function of its
two string arguments. -/
theorem verify_password_roundtrip (p p2 s : String) :
    verify_password p (get_hash p s) s = true ∧
    verify_password p2 (get_hash p s) s = (get_hash p s == get_hash p2 s) := by
  constructor
  · simp [verify_password]
  · rfl

/-! ## List toolkit for the query and upsert proofs -/

/-- `find?` is the head of `filter`. -/
theorem find?_eq_head?_filter {α : Type} (p : α → Bool) (l : List α) :
    l.find? p = (l.filter p).head? := by
  induction l with
  | nil => rfl
  | cons x xs ih =>
      by_cases hx : p x
      · rw [List.find?_cons_of_pos _ hx, List.filter_cons, if_pos hx]
        rfl
      · rw [List.find?_cons_of_neg _ hx, List.filter_cons, if_neg hx, ih]

/-- When the mapped keys of `l` are distinct and `p` pins the key to a
single value, at most one element passes the filter. -/
theorem length_filter_le_one {α κ : Type} [DecidableEq κ] (f : α → κ)
    (p : α → Bool) {l : List α} (hnd : (l.map f).Nodup) (k : κ)
    (hp : ∀ x, p x = true → f x = k) :
    (l.filter p).length ≤ 1 := by
  induction l with
  | nil => simp
  | cons x xs ih =>
      simp only [List.map_cons, List.nodup_cons] at hnd
      obtain ⟨hx, hxs⟩ := hnd
      by_cases hpx : p x
      · have hnil : xs.filter p = [] := by
          refine List.filter_eq_nil_iff.mpr ?_
          intro y hy hpy
          exact hx (by rw [hp x hpx, ← hp y hpy]; exact List.mem_map_of_mem f hy)
        simp [List.filter_cons, hpx, hnil]
      · simp only [List.filter_cons, if_neg hpx]
        exact ih hxs

/-- A member passing a filter of length at most one is its sole
element. -/
theorem filter_eq_single_of_mem {α : Type} (p : α → Bool) {l : List α}
    {a : α} (ha : a ∈ l) (hpa : p a = true)
    (hlen : (l.filter p).length ≤ 1) :
    l.filter p = [a] := by
  have hmem : a ∈ l.filter p := List.mem_filter.mpr ⟨ha, hpa⟩
  match h : l.filter p with
  | [] => rw [h] at hmem; cases hmem
  | [b] =>
      rw [h] at hmem
      simp only [List.mem_singleton] at hmem
      rw [hmem]
  | b :: c :: rest => rw [h] at hlen; simp at hlen

/-- Unique-key lookup: distinct mapped keys plus a member carrying the
key pin the filter down to that single member. -/
theorem filter_key_single {α κ : Type} [DecidableEq κ] (f : α → κ)
    (p : α → Bool) {l : List α} {a : α} (hnd : (l.map f).Nodup) (k : κ)
    (hp : ∀ x, p x = true → f x = k) (ha : a ∈ l) (hpa : p a = true) :
    l.filter p = [a] :=
  filter_eq_single_of_mem p ha hpa (length_filter_le_one f p hnd k hp)

/-- A `flatMap` that yields `[a]` or `[]` pointwise is a `filter`. -/
theorem flatMap_pointwise_filter {α : Type} (f : α → List α) (p : α → Bool)
    (l : List α) (h : ∀ a ∈ l, f a = if p a then [a] else []) :
    l.flatMap f = l.filter p := by
  induction l with
  | nil => rfl
  | cons x xs ih =>
      have hx := h x (List.mem_cons_self x xs)
      have ihx := ih (fun a ha => h a (List.mem_cons_of_mem x ha))
      by_cases hpx : p x
      · simp only [List.flatMap_cons, hx, if_pos hpx, List.filter_cons,
          if_pos hpx, ihx, List.singleton_append]
      · simp only [List.flatMap_cons, hx, if_neg hpx, List.filter_cons,
          if_neg hpx, ihx, List.nil_append]

/-- Under referential integrity, the student→faculty join step of the
faculty-filtered query keeps a grade exactly when the grade's student
belongs to a faculty with the filtered name. -/
theorem facultyStage (db : ScoreDB) (hinv : ScoreDBInv db) (fn : String)
    (g : Grade) (hg : g ∈ db.grades) :
    ((db.students.filter (fun s => s.id == g.student_id)).flatMap (fun s =>
      (db.faculties.filter (fun f => f.id == s.faculty_id && f.name == fn)).map
        (fun _ => g)))
    = if gradeFacultyName db g == some fn then [g] else [] := by
  obtain ⟨s0, hs0mem, hs0id⟩ := hinv.gradeStudent g hg
  have hsfilter : db.students.filter (fun s => s.id == g.student_id) = [s0] :=
    filter_key_single (fun s => s.id) _ hinv.studentIds g.student_id
      (fun x hx => by simpa using hx) hs0mem (by simp [hs0id])
  obtain ⟨f0, hf0mem, hf0id⟩ := hinv.studentFaculty s0 hs0mem
  have hffilter : db.faculties.filter (fun f => f.id == s0.faculty_id) = [f0] :=
    filter_key_single (fun f => f.id) _ hinv.facultyIds s0.faculty_id
      (fun x hx => by simpa using hx) hf0mem (by simp [hf0id])
  have hname : gradeFacultyName db g = some f0.name := by
    have h1 : db.students.find? (fun s => s.id == g.student_id) = some s0 := by
      rw [find?_eq_head?_filter, hsfilter]; rfl
    have h2 : db.faculties.find? (fun f => f.id == s0.faculty_id) = some f0 := by
      rw [find?_eq_head?_filter, hffilter]; rfl
    simp [gradeFacultyName, h1, h2]
  rw [hsfilter, hname]
  by_cases hfn : f0.name == fn
  · have : db.faculties.filter (fun f => f.id == s0.faculty_id && f.name == fn)
        = [f0] :=
      filter_key_single (fun f => f.id) _ hinv.facultyIds s0.faculty_id
        (fun x hx => by simp only [Bool.and_eq_true, beq_iff_eq] at hx; exact hx.1)
        hf0mem (by simp only [Bool.and_eq_true, beq_iff_eq]; exact ⟨hf0id, by simpa using hfn⟩)
    simp [this, hfn]
  · have : db.faculties.filter (fun f => f.id == s0.faculty_id && f.name == fn)
        = [] := by
      refine List.filter_eq_nil_iff.mpr ?_
      intro x hx hcontra
      simp only [Bool.and_eq_true, beq_iff_eq] at hcontra
      have hxeq : x = f0 :=
        List.inj_on_of_nodup_map hinv.facultyIds hx hf0mem
          (by rw [hcontra.1, hf0id])
      apply hfn
      rw [← hxeq]
      simp [hcontra.2]
    simp only [this, List.map_nil, List.flatMap_cons, List.flatMap_nil,
      List.append_nil]
    rw [if_neg (by simpa using hfn)]

/-- The course join step of the course-filtered query keeps a grade
exactly when the grade's course has the filtered name. -/
theorem courseStage (db : ScoreDB) (hinv : ScoreDBInv db) (cn : String)
    (g : Grade) (hg : g ∈ db.grades) :
    ((db.courses.filter (fun c => c.id == g.course_id && c.name == cn)).map
      (fun _ => g))
    = if gradeCourseName db g == some cn then [g] else [] := by
  obtain ⟨c0, hc0mem, hc0id⟩ := hinv.gradeCourse g hg
  have hcfilter : db.courses.filter (fun c => c.id == g.course_id) = [c0] :=
    filter_key_single (fun c => c.id) _ hinv.courseIds g.course_id
      (fun x hx => by simpa using hx) hc0mem (by simp [hc0id])
  have hname : gradeCourseName db g = some c0.name := by
    have h1 : db.courses.find? (fun c => c.id == g.course_id) = some c0 := by
      rw [find?_eq_head?_filter, hcfilter]; rfl
    simp [gradeCourseName, h1]
  rw [hname]
  by_cases hcn : c0.name == cn
  · have : db.courses.filter (fun c => c.id == g.course_id && c.name == cn)
        = [c0] :=
      filter_key_single (fun c => c.id) _ hinv.courseIds g.course_id
        (fun x hx => by simp only [Bool.and_eq_true, beq_iff_eq] at hx; exact hx.1)
        hc0mem (by simp only [Bool.and_eq_true, beq_iff_eq]; exact ⟨hc0id, by simpa using hcn⟩)
    simp [this, hcn]
  · have : db.courses.filter (fun c => c.id == g.course_id && c.name == cn)
        = [] := by
      refine List.filter_eq_nil_iff.mpr ?_
      intro x hx hcontra
      simp only [Bool.and_eq_true, beq_iff_eq] at hcontra
      have hxeq : x = c0 :=
        List.inj_on_of_nodup_map hinv.courseIds hx hc0mem
          (by rw [hcontra.1, hc0id])
      apply hcn
      rw [← hxeq]
      simp [hcontra.2]
    rw [this, if_neg (by simpa using hcn)]
    rfl

/-- For filters that are already truthiness-normalized (any present
filter string is non-empty), the pre-pagination rows of the listing
query are exactly the grade rows matching the filters, in stored
order, given referential integrity. -/
theorem listRows_norm_eq_filter (db : ScoreDB) (faculty course : Option String)
    (hinv : ScoreDBInv db)
    (hfac : ∀ s, faculty = some s → (s == "") = false)
    (hcrs : ∀ s, course = some s → (s == "") = false) :
    listRows db faculty course = db.grades.filter (gradeMatches db faculty course) := by
  cases faculty with
  | none =>
      cases course with
      | none =>
          show db.grades = _
          refine (List.filter_eq_self.mpr ?_).symm
          intro a ha
          simp [gradeMatches]
      | some cn =>
          have hcn : ¬((cn == "") = true) := by simp [hcrs cn rfl]
          simp only [listRows]
          rw [if_neg hcn]
          rw [flatMap_pointwise_filter _
            (fun g => gradeCourseName db g == some cn) _
            (fun g hg => courseStage db hinv cn g hg)]
          exact List.filter_congr (fun g hg => by simp [gradeMatches])
  | some fn =>
      have hfn : ¬((fn == "") = true) := by simp [hfac fn rfl]
      have hrows1 : db.grades.flatMap (fun g =>
          (db.students.filter (fun s => s.id == g.student_id)).flatMap (fun s =>
            (db.faculties.filter
              (fun f => f.id == s.faculty_id && f.name == fn)).map
              (fun _ => g)))
          = db.grades.filter (fun g => gradeFacultyName db g == some fn) :=
        flatMap_pointwise_filter _ _ _ (fun g hg => facultyStage db hinv fn g hg)
      cases course with
      | none =>
          simp only [listRows]
          rw [if_neg hfn]
          rw [hrows1]
          exact List.filter_congr (fun g hg => by simp [gradeMatches])
      | some cn =>
          have hcn : ¬((cn == "") = true) := by simp [hcrs cn rfl]
          simp only [listRows]
          rw [if_neg hcn, if_neg hfn]
          rw [hrows1]
          rw [flatMap_pointwise_filter _
            (fun g => gradeCourseName db g == some cn) _
            (fun g hg => courseStage db hinv cn g (List.mem_filter.mp hg).1)]
          rw [List.filter_filter]
          exact List.filter_congr (fun g hg => by
            simp [gradeMatches, Bool.and_comm])

/-- The handler's truthiness guards make a present-but-empty filter
behave exactly like an absent one. -/
theorem listRows_eq_effective (db : ScoreDB) (faculty course : Option String) :
    listRows db faculty course =
      listRows db (effectiveFilter faculty) (effectiveFilter course) := by
  cases faculty with
  | none =>
      cases course with
      | none => rfl
      | some cn =>
          by_cases hcn : cn == "" <;>
            simp [listRows, effectiveFilter, hcn]
  | some fn =>
      cases course with
      | none =>
          by_cases hfn : fn == "" <;>
            simp [listRows, effectiveFilter, hfn]
      | some cn =>
          by_cases hfn : fn == "" <;> by_cases hcn : cn == "" <;>
            simp [listRows, effectiveFilter, hfn, hcn]

/-- A filter string surviving truthiness normalization is non-empty. -/
theorem effectiveFilter_nonempty (o : Option String) (s : String)
    (h : effectiveFilter o = some s) : (s == "") = false := by
  cases o with
  | none => cases h
  | some t =>
      by_cases ht : t == ""
      · simp [effectiveFilter, ht] at h
      · simp only [effectiveFilter, if_neg ht, Option.some.injEq] at h
        subst h
        simpa using ht

/-- The pre-pagination rows of the listing query are exactly the grade
rows matching the *effective* filters — a present-but-empty filter is
skipped by the handler's truthiness test — in stored order, given
referential integrity. -/
theorem listRows_eq_filter (db : ScoreDB) (faculty course : Option String)
    (hinv : ScoreDBInv db) :
    listRows db faculty course = db.grades.filter
      (gradeMatches db (effectiveFilter faculty) (effectiveFilter course)) := by
  rw [listRows_eq_effective]
  exact listRows_norm_eq_filter db _ _ hinv
    (fun s hs => effectiveFilter_nonempty faculty s hs)
    (fun s hs => effectiveFilter_nonempty course s hs)

/-- Concrete well-formed store: one faculty, one student, one course,
one grade. -/
def wDB : ScoreDB :=
  ⟨[⟨1, "CS"⟩], [⟨1, "Bob", "Lee", 1⟩], [⟨1, "Algo"⟩], [⟨1, 1, 1, 90⟩]⟩

/-- Referential integrity of the concrete store `wDB`. -/
theorem wDB_inv : ScoreDBInv wDB :=
  ⟨by decide, by decide, by decide, by decide, by decide, by decide⟩

/-- C5 counterexample: the claim says `total` equals the number of
grade rows matching the filters for every filter combination.  For the
present-but-empty faculty filter (`GET /score?faculty=`) the handler's
truthiness test skips the restriction and counts every grade (total 1
on the one-grade store `wDB`), while no grade row matches an
exact-equality faculty filter `""` (count 0). -/
theorem list_scores_total_ignores_empty_filter :
    (list_scores wDB (some "") none 0 100).2 = 1 ∧
    (wDB.grades.filter (gradeMatches wDB (some "") none)).length = 0 := by
  decide

/-- C5 (amended): `total` equals the number of grade rows matching the
*effective* filters — a present-but-empty filter is skipped by the
handler's truthiness test exactly like an absent one — with pagination
not applied, the same value for every choice of `skip` and `limit`,
and the returned page never exceeds `limit` rows, under referential
integrity of the store. -/
theorem list_scores_total_spec (db : ScoreDB) (faculty course : Option String)
    (skip limit skip2 limit2 : Nat) (hinv : ScoreDBInv db) :
    (list_scores db faculty course skip limit).2 =
      (db.grades.filter (gradeMatches db (effectiveFilter faculty)
        (effectiveFilter course))).length ∧
    (list_scores db faculty course skip limit).2 =
      (list_scores db faculty course skip2 limit2).2 ∧
    (list_scores db faculty course skip limit).1.length ≤ limit := by
  refine ⟨?_, rfl, ?_⟩
  · show (listRows db faculty course).length = _
    rw [listRows_eq_filter db faculty course hinv]
  · show (((listRows db faculty course).drop skip).take limit).length ≤ limit
    rw [List.length_take]
    exact min_le_left _ _

/-- Witness for the amended C5 on `wDB` with the faculty filter `CS`. -/
theorem list_scores_total_spec_witness :
    ScoreDBInv wDB ∧
    ((list_scores wDB (some "CS") none 0 100).2 =
      (wDB.grades.filter (gradeMatches wDB (effectiveFilter (some "CS"))
        (effectiveFilter none))).length ∧
    (list_scores wDB (some "CS") none 0 100).2 =
      (list_scores wDB (some "CS") none 5 1).2 ∧
    (list_scores wDB (some "CS") none 0 100).1.length ≤ 100) :=
  ⟨wDB_inv, list_scores_total_spec wDB (some "CS") none 0 100 5 1 wDB_inv⟩

/-- C6 counterexample: the claim demands exact case-sensitive equality
on the faculty name for every filter string.  With the
present-but-empty faculty filter the handler's truthiness test drops
the restriction: on `wDB` the grade of a `CS` student is returned even
though its student's faculty name differs from `""`. -/
theorem listRows_empty_faculty_filter_ignored :
    listRows wDB (some "") (some "Algo") = [⟨1, 1, 1, 90⟩] ∧
    gradeFacultyName wDB ⟨1, 1, 1, 90⟩ ≠ some "" := by
  decide

/-- C6 (amended): for non-empty filter strings the pre-pagination
result with both filters is exactly the grade rows whose student's
faculty name equals the faculty filter and whose course name equals
the course filter (case-sensitive exact equality, AND semantics), and
each filter alone restricts on its own condition only; an absent
filter — or a present-but-empty one, which the truthiness guard skips
— imposes no restriction; the served page is that result truncated by
pagination. -/
theorem list_scores_filter_composition (db : ScoreDB) (F C : String)
    (limit : Nat) (hinv : ScoreDBInv db) (hF : (F == "") = false)
    (hC : (C == "") = false) :
    listRows db (some F) (some C) = db.grades.filter (fun g =>
      gradeFacultyName db g == some F && gradeCourseName db g == some C) ∧
    listRows db (some F) none = db.grades.filter (fun g =>
      gradeFacultyName db g == some F) ∧
    listRows db none (some C) = db.grades.filter (fun g =>
      gradeCourseName db g == some C) ∧
    listRows db none none = db.grades ∧
    listRows db (some "") (some "") = db.grades ∧
    (list_scores db (some F) (some C) 0 limit).1 =
      (db.grades.filter (fun g => gradeFacultyName db g == some F &&
        gradeCourseName db g == some C)).take limit := by
  have e11 : listRows db (some F) (some C) = db.grades.filter (fun g =>
      gradeFacultyName db g == some F && gradeCourseName db g == some C) := by
    rw [listRows_eq_filter db (some F) (some C) hinv]
    exact List.filter_congr (fun g hg => by simp [gradeMatches, effectiveFilter, hF, hC])
  refine ⟨e11, ?_, ?_, ?_, ?_, ?_⟩
  · rw [listRows_eq_filter db (some F) none hinv]
    exact List.filter_congr (fun g hg => by simp [gradeMatches, effectiveFilter, hF])
  · rw [listRows_eq_filter db none (some C) hinv]
    exact List.filter_congr (fun g hg => by simp [gradeMatches, effectiveFilter, hC])
  · rw [listRows_eq_filter db none none hinv]
    refine List.filter_eq_self.mpr ?_
    intro a ha
    simp [gradeMatches, effectiveFilter]
  · rw [listRows_eq_filter db (some "") (some "") hinv]
    refine List.filter_eq_self.mpr ?_
    intro a ha
    simp [gradeMatches, effectiveFilter]
  · show ((listRows db (some F) (some C)).drop 0).take limit = _
    rw [List.drop_zero, e11]

/-- Witness for the amended C6 on `wDB` with the non-empty filters `CS`
and `Algo`. -/
theorem list_scores_filter_composition_witness :
    ScoreDBInv wDB ∧ ("CS" == "") = false ∧ ("Algo" == "") = false ∧
    (listRows wDB (some "CS") (some "Algo") = wDB.grades.filter (fun g =>
      gradeFacultyName wDB g == some "CS" &&
        gradeCourseName wDB g == some "Algo") ∧
    listRows wDB (some "CS") none = wDB.grades.filter (fun g =>
      gradeFacultyName wDB g == some "CS") ∧
    listRows wDB none (some "Algo") = wDB.grades.filter (fun g =>
      gradeCourseName wDB g == some "Algo") ∧
    listRows wDB none none = wDB.grades ∧
    listRows wDB (some "") (some "") = wDB.grades ∧
    (list_scores wDB (some "CS") (some "Algo") 0 100).1 =
      (wDB.grades.filter (fun g => gradeFacultyName wDB g == some "CS" &&
        gradeCourseName wDB g == some "Algo")).take 100) :=
  ⟨wDB_inv, by decide, by decide,
   list_scores_filter_composition wDB "CS" "Algo" 100 wDB_inv
     (by decide) (by decide)⟩

/-! ## Get-or-create run lemmas for the upsert (C7) -/

/-- A `get_faculty` call whose lookup hits returns the hit and leaves
the store untouched. -/
theorem get_faculty_found (db : ScoreDB) (n : String) (fac : Faculty)
    (hf : db.faculties.filter (fun f => f.name == n) = [fac]) :
    get_faculty db n = .ok (fac, db) := by
  simp only [get_faculty]
  rw [hf]
  rfl

/-- A `get_student` call whose lookup hits returns the hit and leaves
the store untouched. -/
theorem get_student_found (db : ScoreDB) (fn ln : String) (fac : Faculty)
    (stu : Student)
    (hf : db.students.filter (fun s => s.last_name == ln &&
      s.first_name == fn && s.faculty_id == fac.id) = [stu]) :
    get_student db fn ln fac = .ok (stu, db) := by
  simp only [get_student]
  rw [hf]
  rfl

/-- A `get_course` call whose lookup hits returns the hit and leaves
the store untouched. -/
theorem get_course_found (db : ScoreDB) (n : String) (crs : Course)
    (hf : db.courses.filter (fun c => c.name == n) = [crs]) :
    get_course db n = .ok (crs, db) := by
  simp only [get_course]
  rw [hf]
  rfl

/-- An `add_or_update_grade` call whose lookup hits overwrites the
score of the unique matching row in place. -/
theorem add_or_update_grade_found (db : ScoreDB) (sc : Int) (stu : Student)
    (crs : Course) (g0 : Grade)
    (hf : db.grades.filter (fun x => x.student_id == stu.id &&
      x.course_id == crs.id) = [g0]) :
    add_or_update_grade db sc stu crs =
      .ok ({ g0 with score := sc },
        { db with grades := db.grades.map (fun x =>
          if x.student_id == stu.id && x.course_id == crs.id then
            { x with score := sc } else x) }) := by
  simp only [add_or_update_grade]
  rw [hf]
  rfl

/-- Overwriting the score of the unique row matching a
(student, course) pair keeps that row unique, with the new score, and
preserves the table's length. -/
theorem grades_update_facts (grades : List Grade) (sc : Int) (sid cid : Nat)
    (g0 : Grade)
    (hf : grades.filter (fun x => x.student_id == sid && x.course_id == cid)
      = [g0]) :
    ((grades.map (fun x => if x.student_id == sid && x.course_id == cid then
        { x with score := sc } else x)).filter (fun x =>
        x.student_id == sid && x.course_id == cid)
      = [{ g0 with score := sc }]) ∧
    (grades.map (fun x => if x.student_id == sid && x.course_id == cid then
        { x with score := sc } else x)).length = grades.length := by
  have hg0 : (g0.student_id == sid && g0.course_id == cid) = true := by
    have : g0 ∈ grades.filter (fun x => x.student_id == sid &&
        x.course_id == cid) := by
      rw [hf]; exact List.mem_singleton.mpr rfl
    exact (List.mem_filter.mp this).2
  constructor
  · rw [List.filter_map]
    have hcongr : grades.filter ((fun x => x.student_id == sid &&
          x.course_id == cid) ∘ (fun x =>
            if x.student_id == sid && x.course_id == cid then
              { x with score := sc } else x))
        = grades.filter (fun x => x.student_id == sid && x.course_id == cid) := by
      refine List.filter_congr ?_
      intro x _
      by_cases hx : (x.student_id == sid && x.course_id == cid) = true
      · simp [Function.comp, hx]
      · simp only [Function.comp]
        rw [if_neg hx]
    rw [hcongr, hf, List.map_singleton, if_pos hg0]
  · exact List.length_map _ _

/-- Running `get_faculty` on a store with distinct faculty names
succeeds and establishes a unique faculty row carrying the name,
touching no other table. -/
theorem get_faculty_run (db : ScoreDB) (n : String)
    (h : (db.faculties.map (fun f => f.name)).Nodup) :
    ∃ fac db2, get_faculty db n = .ok (fac, db2) ∧
      db2.faculties.filter (fun f => f.name == n) = [fac] ∧
      db2.students = db.students ∧ db2.courses = db.courses ∧
      db2.grades = db.grades := by
  have hlen := length_filter_le_one (fun f : Faculty => f.name)
    (fun f => f.name == n) h n (fun x hx => by simpa using hx)
  cases hf : db.faculties.filter (fun f => f.name == n) with
  | nil =>
      refine ⟨⟨nextId (db.faculties.map (fun f => f.id)), n⟩,
        { db with faculties := db.faculties ++
            [⟨nextId (db.faculties.map (fun f => f.id)), n⟩] },
        ?_, ?_, rfl, rfl, rfl⟩
      · simp only [get_faculty]
        rw [hf]
        rfl
      · simp [List.filter_append, hf, List.filter_cons]
  | cons f0 rest =>
      cases rest with
      | nil =>
          exact ⟨f0, db, get_faculty_found db n f0 hf, hf, rfl, rfl, rfl⟩
      | cons f1 rest2 => rw [hf] at hlen; simp at hlen

/-- Running `get_student` on a store with distinct student natural keys
succeeds and establishes a unique student row carrying the key,
touching no other table. -/
theorem get_student_run (db : ScoreDB) (fn ln : String) (fac : Faculty)
    (h : (db.students.map (fun s =>
      (s.first_name, s.last_name, s.faculty_id))).Nodup) :
    ∃ stu db2, get_student db fn ln fac = .ok (stu, db2) ∧
      db2.students.filter (fun s => s.last_name == ln &&
        s.first_name == fn && s.faculty_id == fac.id) = [stu] ∧
      db2.faculties = db.faculties ∧ db2.courses = db.courses ∧
      db2.grades = db.grades := by
  have hlen := length_filter_le_one
    (fun s : Student => (s.first_name, s.last_name, s.faculty_id))
    (fun s => s.last_name == ln && s.first_name == fn &&
      s.faculty_id == fac.id) h (fn, ln, fac.id)
    (fun x hx => by
      simp only [Bool.and_eq_true, beq_iff_eq] at hx
      obtain ⟨⟨hl, hfn⟩, hfid⟩ := hx
      simp [hl, hfn, hfid])
  cases hf : db.students.filter (fun s => s.last_name == ln &&
      s.first_name == fn && s.faculty_id == fac.id) with
  | nil =>
      refine ⟨⟨nextId (db.students.map (fun s => s.id)), fn, ln, fac.id⟩,
        { db with students := db.students ++
            [⟨nextId (db.students.map (fun s => s.id)), fn, ln, fac.id⟩] },
        ?_, ?_, rfl, rfl, rfl⟩
      · simp only [get_student]
        rw [hf]
        rfl
      · simp [List.filter_append, hf, List.filter_cons]
  | cons s0 rest =>
      cases rest with
      | nil =>
          exact ⟨s0, db, get_student_found db fn ln fac s0 hf, hf, rfl, rfl, rfl⟩
      | cons s1 rest2 => rw [hf] at hlen; simp at hlen

/-- Running `get_course` on a store with distinct course names succeeds
and establishes a unique course row carrying the name, touching no
other table. -/
theorem get_course_run (db : ScoreDB) (n : String)
    (h : (db.courses.map (fun c => c.name)).Nodup) :
    ∃ crs db2, get_course db n = .ok (crs, db2) ∧
      db2.courses.filter (fun c => c.name == n) = [crs] ∧
      db2.faculties = db.faculties ∧ db2.students = db.students ∧
      db2.grades = db.grades := by
  have hlen := length_filter_le_one (fun c : Course => c.name)
    (fun c => c.name == n) h n (fun x hx => by simpa using hx)
  cases hf : db.courses.filter (fun c => c.name == n) with
  | nil =>
      refine ⟨⟨nextId (db.courses.map (fun c => c.id)), n⟩,
        { db with courses := db.courses ++
            [⟨nextId (db.courses.map (fun c => c.id)), n⟩] },
        ?_, ?_, rfl, rfl, rfl⟩
      · simp only [get_course]
        rw [hf]
        rfl
      · simp [List.filter_append, hf, List.filter_cons]
  | cons c0 rest =>
      cases rest with
      | nil =>
          exact ⟨c0, db, get_course_found db n c0 hf, hf, rfl, rfl, rfl⟩
      | cons c1 rest2 => rw [hf] at hlen; simp at hlen

/-- Running `add_or_update_grade` on a store with distinct
(student, course) grade keys succeeds and establishes a unique grade
row for the pair carrying the given score, touching no other table. -/
theorem add_or_update_grade_run (db : ScoreDB) (sc : Int) (stu : Student)
    (crs : Course)
    (h : (db.grades.map (fun g => (g.student_id, g.course_id))).Nodup) :
    ∃ g db2, add_or_update_grade db sc stu crs = .ok (g, db2) ∧
      db2.grades.filter (fun x => x.student_id == stu.id &&
        x.course_id == crs.id) = [g] ∧
      g.score = sc ∧ g.student_id = stu.id ∧ g.course_id = crs.id ∧
      db2.faculties = db.faculties ∧ db2.students = db.students ∧
      db2.courses = db.courses := by
  have hlen := length_filter_le_one
    (fun g : Grade => (g.student_id, g.course_id))
    (fun x => x.student_id == stu.id && x.course_id == crs.id) h
    (stu.id, crs.id)
    (fun x hx => by
      simp only [Bool.and_eq_true, beq_iff_eq] at hx
      simp [hx.1, hx.2])
  cases hf : db.grades.filter (fun x => x.student_id == stu.id &&
      x.course_id == crs.id) with
  | nil =>
      refine ⟨⟨nextId (db.grades.map (fun g => g.id)), stu.id, crs.id, sc⟩,
        { db with grades := db.grades ++
            [⟨nextId (db.grades.map (fun g => g.id)), stu.id, crs.id, sc⟩] },
        ?_, ?_, rfl, rfl, rfl, rfl, rfl, rfl⟩
      · simp only [add_or_update_grade]
        rw [hf]
        rfl
      · simp [List.filter_append, hf, List.filter_cons]
  | cons g0 rest =>
      cases rest with
      | nil =>
          obtain ⟨hupd, _⟩ := grades_update_facts db.grades sc stu.id crs.id g0 hf
          have hg0 : (g0.student_id == stu.id && g0.course_id == crs.id) = true := by
            have : g0 ∈ db.grades.filter (fun x => x.student_id == stu.id &&
                x.course_id == crs.id) := by
              rw [hf]; exact List.mem_singleton.mpr rfl
            exact (List.mem_filter.mp this).2
          simp only [Bool.and_eq_true, beq_iff_eq] at hg0
          exact ⟨{ g0 with score := sc }, _,
            add_or_update_grade_found db sc stu crs g0 hf, hupd, rfl,
            hg0.1, hg0.2, rfl, rfl, rfl⟩
      | cons g1 rest2 => rw [hf] at hlen; simp at hlen

/-- Running the full upsert `add_score` on a store with distinct
natural keys succeeds, and the resulting store holds unique rows for
the faculty, the student, the course and the grade, the grade carrying
the submitted score. -/
theorem add_score_run (db : ScoreDB) (fn ln fa co : String) (sc : Int)
    (h1 : (db.faculties.map (fun f => f.name)).Nodup)
    (h2 : (db.students.map (fun s =>
      (s.first_name, s.last_name, s.faculty_id))).Nodup)
    (h3 : (db.courses.map (fun c => c.name)).Nodup)
    (h4 : (db.grades.map (fun g => (g.student_id, g.course_id))).Nodup) :
    ∃ fac stu crs g1 db1,
      add_score db fn ln fa co sc = .ok (g1, db1) ∧
      db1.faculties.filter (fun f => f.name == fa) = [fac] ∧
      db1.students.filter (fun x => x.last_name == ln &&
        x.first_name == fn && x.faculty_id == fac.id) = [stu] ∧
      db1.courses.filter (fun c => c.name == co) = [crs] ∧
      db1.grades.filter (fun x => x.student_id == stu.id &&
        x.course_id == crs.id) = [g1] ∧
      g1.score = sc ∧ g1.student_id = stu.id ∧ g1.course_id = crs.id := by
  obtain ⟨fac, dbA, hrunA, hfacA, hstuA, hcrsA, hgrdA⟩ := get_faculty_run db fa h1
  obtain ⟨stu, dbB, hrunB, hstuB, hfacB, hcrsB, hgrdB⟩ :=
    get_student_run dbA fn ln fac (by rw [hstuA]; exact h2)
  obtain ⟨crs, dbC, hrunC, hcrsC, hfacC, hstuC, hgrdC⟩ :=
    get_course_run dbB co (by rw [hcrsB, hcrsA]; exact h3)
  obtain ⟨g1, db1, hrunD, hgrdD, hscD, hsidD, hcidD, hfacD, hstuD, hcrsD⟩ :=
    add_or_update_grade_run dbC sc stu crs (by rw [hgrdC, hgrdB, hgrdA]; exact h4)
  refine ⟨fac, stu, crs, g1, db1, ?_, ?_, ?_, ?_, hgrdD, hscD, hsidD, hcidD⟩
  · simp only [add_score, hrunA, hrunB, hrunC, hrunD]
  · rw [hfacD, hfacC, hfacB, hfacA]
  · rw [hstuD, hstuC, hstuB]
  · rw [hcrsD, hcrsC]

/-- C7: two consecutive upserts with the same names and faculty/course
but scores `s1` then `s2` leave exactly one grade row for the resolved
(student, course) pair, holding `s2`; the second call adds no Faculty,
Student or Course row (those tables are unchanged) and no grade row
(the table's length is unchanged), given distinct natural keys in the
initial store. -/
theorem add_score_upsert_idempotent (db : ScoreDB) (fn ln fa co : String)
    (s1 s2 : Int)
    (h1 : (db.faculties.map (fun f => f.name)).Nodup)
    (h2 : (db.students.map (fun s =>
      (s.first_name, s.last_name, s.faculty_id))).Nodup)
    (h3 : (db.courses.map (fun c => c.name)).Nodup)
    (h4 : (db.grades.map (fun g => (g.student_id, g.course_id))).Nodup) :
    ∃ g1 db1 g2 db2,
      add_score db fn ln fa co s1 = .ok (g1, db1) ∧
      add_score db1 fn ln fa co s2 = .ok (g2, db2) ∧
      db2.faculties = db1.faculties ∧
      db2.students = db1.students ∧
      db2.courses = db1.courses ∧
      db2.grades.length = db1.grades.length ∧
      db2.grades.filter (fun x => x.student_id == g2.student_id &&
        x.course_id == g2.course_id) = [g2] ∧
      g2.score = s2 ∧ g2.student_id = g1.student_id ∧
      g2.course_id = g1.course_id := by
  obtain ⟨fac, stu, crs, g1, db1, hcall1, hfacF, hstuF, hcrsF, hgrdF,
    hg1s, hg1sid, hg1cid⟩ := add_score_run db fn ln fa co s1 h1 h2 h3 h4
  obtain ⟨hupd, hlen⟩ := grades_update_facts db1.grades s2 stu.id crs.id g1 hgrdF
  refine ⟨g1, db1, { g1 with score := s2 },
    { db1 with grades := db1.grades.map (fun x =>
      if x.student_id == stu.id && x.course_id == crs.id then
        { x with score := s2 } else x) },
    hcall1, ?_, rfl, rfl, rfl, hlen, ?_, rfl, rfl, rfl⟩
  · simp only [add_score, get_faculty_found db1 fa fac hfacF,
      get_student_found db1 fn ln fac stu hstuF,
      get_course_found db1 co crs hcrsF,
      add_or_update_grade_found db1 s2 stu crs g1 hgrdF]
  · show (db1.grades.map _).filter (fun x : Grade =>
        x.student_id == g1.student_id && x.course_id == g1.course_id) = _
    have hpred : (fun x : Grade => x.student_id == g1.student_id &&
        x.course_id == g1.course_id) = (fun x : Grade =>
        x.student_id == stu.id && x.course_id == crs.id) := by
      rw [hg1sid, hg1cid]
    rw [hpred]
    exact hupd

/-- Witness for C7: the spec's scenario — upserting (Bob, Lee, CS,
Algo) with score 90 then 70 on the empty store. -/
theorem add_score_upsert_idempotent_witness :
    ((ScoreDB.faculties ⟨[], [], [], []⟩).map (fun f => f.name)).Nodup ∧
    ((ScoreDB.students ⟨[], [], [], []⟩).map (fun s =>
      (s.first_name, s.last_name, s.faculty_id))).Nodup ∧
    ((ScoreDB.courses ⟨[], [], [], []⟩).map (fun c => c.name)).Nodup ∧
    ((ScoreDB.grades ⟨[], [], [], []⟩).map (fun g =>
      (g.student_id, g.course_id))).Nodup ∧
    (∃ g1 db1 g2 db2,
      add_score ⟨[], [], [], []⟩ "Bob" "Lee" "CS" "Algo" 90 = .ok (g1, db1) ∧
      add_score db1 "Bob" "Lee" "CS" "Algo" 70 = .ok (g2, db2) ∧
      db2.faculties = db1.faculties ∧
      db2.students = db1.students ∧
      db2.courses = db1.courses ∧
      db2.grades.length = db1.grades.length ∧
      db2.grades.filter (fun x => x.student_id == g2.student_id &&
        x.course_id == g2.course_id) = [g2] ∧
      g2.score = 70 ∧ g2.student_id = g1.student_id ∧
      g2.course_id = g1.course_id) :=
  ⟨by decide, by decide, by decide, by decide,
   add_score_upsert_idempotent ⟨[], [], [], []⟩ "Bob" "Lee" "CS" "Algo" 90 70
     (by decide) (by decide) (by decide) (by decide)⟩

end GradeApi
